import Mathlib

/-
  Verification development for the mnemosyne capture/transcription core.

  The data model and the frontend operations are embedded from the
  TypeScript sources under src/src/lib (types/index.ts, api/backend.ts,
  stores/transcript.svelte.ts, stores/websocket.svelte.ts, stores for
  audio and session state).  The backend (capture, mixer, pipeline,
  persistence, model service) is not part of the source tree; where a
  property depends on it, the corresponding definition is modelled from
  the specification and says so in its doc comment.

  Timestamps (seconds, floats in the source) are embedded as integers of
  an arbitrary fixed resolution; only their ordering matters here.
-/

namespace Mnemosyne

/-- Minimal JSON value model for request/response bodies and persisted
records (the source passes plain JSON objects over fetch and disk). -/
inductive JValue where
  | null : JValue
  | str (s : String) : JValue
  | num (n : Int) : JValue
  | bool (b : Bool) : JValue
  | arr (xs : List JValue) : JValue
  | obj (fields : List (String × JValue)) : JValue

/-- Transcript segment, from `TranscriptSegment` in src/src/lib/types/index.ts:
fields text, speaker, start, end (the source field named end is embedded
as endSec, end being a Lean keyword). -/
structure TranscriptSegment where
  text : String
  speaker : String
  start : Int
  endSec : Int
  deriving DecidableEq, Repr

/-- Session status enum, from `SessionStatus` in src/src/lib/types/index.ts. -/
inductive SessionStatus where
  | created
  | recording
  | processing
  | completed
  | error
  deriving DecidableEq, Repr

/-- Session record, from `SessionDetail` in src/src/lib/types/index.ts. -/
structure SessionRecord where
  id : String
  name : String
  status : SessionStatus
  createdAt : String
  updatedAt : String
  audioFile : Option String
  transcript : List TranscriptSegment
  summary : String
  notes : String
  participants : List String
  deriving DecidableEq, Repr

/-- Messages arriving on the gateway WebSocket, as dispatched on
`msg.type` by the handler registered in `TranscriptState.init`
(src/src/lib/stores/transcript.svelte.ts): transcription carries a
segment, statusMsg and errorMsg carry a message string, `other` stands
for any message with an unrecognized type. -/
inductive WsMessage where
  | transcription (segment : TranscriptSegment)
  | statusMsg (message : String)
  | errorMsg (message : String)
  | other
  deriving DecidableEq, Repr

/-- Observer-side transcript store state, from class `TranscriptState`
in src/src/lib/stores/transcript.svelte.ts (speakerColorMap embedded as
an association list). -/
structure TranscriptState where
  segments : List TranscriptSegment
  status : String
  isProcessing : Bool
  error : Option String
  speakerColors : List (String × String)
  deriving DecidableEq, Repr

/-- Palette from `SPEAKER_COLORS` in src/src/lib/stores/transcript.svelte.ts. -/
def SPEAKER_COLORS : List String :=
  ["text-blue-400", "text-green-400", "text-purple-400", "text-orange-400",
   "text-pink-400", "text-cyan-400", "text-yellow-400", "text-red-400"]

/-- Embeds `TranscriptState.getSpeakerColor`: assigns a palette color to a
speaker the first time it is seen; returns the updated map. -/
def getSpeakerColor (map : List (String × String)) (speaker : String) :
    List (String × String) :=
  if map.any (fun p => p.1 == speaker) then map
  else map ++ [(speaker, SPEAKER_COLORS.getD (map.length % SPEAKER_COLORS.length) (""))]

/-- Embeds the message handler registered by `TranscriptState.init`
(src/src/lib/stores/transcript.svelte.ts lines 44-64): a transcription
message appends its segment to the store, a status message updates
status and possibly isProcessing, an error message records the error and
clears isProcessing; all other fields are untouched. -/
def handleMessage (st : TranscriptState) : WsMessage → TranscriptState
  | .transcription seg =>
      { st with segments := st.segments ++ [seg],
                speakerColors := getSpeakerColor st.speakerColors seg.speaker }
  | .statusMsg m =>
      let st1 := { st with status := m }
      if m = "Transcribing..." then { st1 with isProcessing := true }
      else if m = "Transcription complete" then { st1 with isProcessing := false }
      else st1
  | .errorMsg m => { st with error := some m, isProcessing := false }
  | .other => st

/-- The readyState value `WebSocket.OPEN` of the browser API (1). -/
def WS_OPEN : Nat := 1

/-- Gateway client state, from class `WebSocketState` in
src/src/lib/stores/websocket.svelte.ts.  `ws = none` models a socket
that was never created or was dropped; otherwise the payload is the
underlying socket readyState (0 connecting, 1 open, 2 closing,
3 closed).  `sent` is the log of frames actually transmitted. -/
structure WsState where
  ws : Option Nat
  connected : Bool
  sent : List JValue

/-- Embeds `WebSocketState.send` (src/src/lib/stores/websocket.svelte.ts
lines 55-59): the frame is transmitted only when a socket exists and its
readyState is OPEN; otherwise nothing happens and no error is raised. -/
def send (st : WsState) (m : JValue) : WsState :=
  if st.ws = some WS_OPEN then { st with sent := st.sent ++ [m] } else st

/-- Request frame built by `TranscriptState.startTranscription`. -/
def transcribeMsg (audioPath : String) (sessionId : Option String) : JValue :=
  .obj [("type", .str ("transcribe")),
        ("audio_path", .str audioPath),
        ("session_id", match sessionId with
          | none => JValue.null
          | some s => JValue.str s)]

/-- Combined observer state: the transcript store plus the gateway client
it sends through. -/
structure AppState where
  ts : TranscriptState
  ws : WsState

/-- Embeds `TranscriptState.clear`. -/
def clearTranscript (st : TranscriptState) : TranscriptState :=
  { st with segments := [], speakerColors := [], status := "", error := none,
            isProcessing := false }

/-- Embeds `TranscriptState.startTranscription`
(src/src/lib/stores/transcript.svelte.ts lines 92-100): clears the
store, sets isProcessing, then hands the transcribe frame to
`WebSocketState.send`. -/
def startTranscription (app : AppState) (audioPath : String)
    (sessionId : Option String) : AppState :=
  { ts := { clearTranscript app.ts with isProcessing := true },
    ws := send app.ws (transcribeMsg audioPath sessionId) }

/-- Response of POST /api/audio/start, from `StartRecordingResponse`. -/
structure StartResponse where
  sessionId : String
  recordingId : String
  message : String
  deriving DecidableEq, Repr

/-- Response of POST /api/audio/stop, from `StopRecordingResponse`:
outputFile is the merged file, individualFiles the per-device files. -/
structure StopResponse where
  sessionId : String
  recordingId : String
  outputFile : String
  individualFiles : List String
  message : String
  deriving DecidableEq, Repr

/-- Audio store state, from class `AudioState` in the audio store source
(selectedDeviceIds, a Set in the source, embedded as a duplicate-free
list is not required for the claims; a plain list suffices). -/
structure AudioState where
  selectedDeviceIds : List Nat
  isRecording : Bool
  activeSessionId : Option String
  recordingDuration : Nat
  error : Option String
  deriving DecidableEq, Repr

/-- Embeds `AudioState.startRecording` (audio store lines 134-155).  The
backend call is abstracted as `api`; the second component of the result
is the request actually issued to the backend (`none` when no request
was made, so no CaptureJob and no capture subprocess can exist). -/
def startRecording (st : AudioState) (sessionId : Option String)
    (api : List Nat → Option String → Except String StartResponse) :
    AudioState × Option (List Nat × Option String) :=
  if st.selectedDeviceIds.isEmpty then
    ({ st with error := some ("Select at least one audio device") }, none)
  else
    match api st.selectedDeviceIds sessionId with
    | .error e => ({ st with error := some e }, some (st.selectedDeviceIds, sessionId))
    | .ok res =>
        ({ st with error := none,
                   activeSessionId := some res.sessionId,
                   isRecording := true,
                   recordingDuration := 0 },
         some (st.selectedDeviceIds, sessionId))

/-- Embeds `AudioState.stopRecording` (audio store lines 157-173): when
no active session id is held the call returns immediately with no
result; otherwise it calls the backend stop endpoint, clears the
recording flags and returns the response with session_id restored. -/
def stopRecording (st : AudioState)
    (api : String → Except String StopResponse) :
    AudioState × Option StopResponse :=
  match st.activeSessionId with
  | none => (st, none)
  | some sid =>
      match api sid with
      | .error e => ({ st with error := some e }, none)
      | .ok res =>
          ({ st with error := none, isRecording := false, activeSessionId := none },
           some { res with sessionId := sid })

/-- Embeds the request body of `createSession` in
src/src/lib/api/backend.ts lines 67-72: the body is
`{ name: name ?? "Untitled Session" }`. -/
def createSessionBody (name : Option String) : JValue :=
  .obj [("name", .str (name.getD ("Untitled Session")))]

/-- Outcome of invoking one registered message handler: the handler
either returns normally, having produced a new observer state, or
throws (in the source a thrown exception escapes the handler into the
for-loop of `onmessage`). -/
inductive HandlerResult (σ : Type) where
  | ok (s : σ) : HandlerResult σ
  | thrown : HandlerResult σ

/-- Type of a registered message handler of `WebSocketState.onMessage`:
it receives the parsed message and the current observer state. -/
def Handler (σ : Type) : Type := JValue → σ → HandlerResult σ

/-- Runs the handler list of `WebSocketState.connect`'s onmessage loop
starting at registration index `i`.  Embeds
`for (const handler of this.handlers) handler(msg)` inside the
try/catch: when a handler throws, the exception aborts the loop (the
remaining handlers are not invoked) and is swallowed by the catch.  The
second component records the indices of the handlers actually invoked,
in invocation order. -/
def runHandlersFrom {σ : Type} (i : Nat) :
    List (Handler σ) → JValue → σ → σ × List Nat
  | [], _, s => (s, [])
  | h :: rest, m, s =>
      match h m s with
      | .thrown => (s, [i])
      | .ok s1 =>
          let r := runHandlersFrom (i + 1) rest m s1
          (r.1, i :: r.2)

/-- Embeds the `onmessage` callback installed by `WebSocketState.connect`
(src/src/lib/stores/websocket.svelte.ts lines 33-42).  `payload` is the
result of JSON.parse on the frame data: `none` means the payload was not
valid JSON, in which case the catch branch ignores the frame entirely. -/
def onmessage {σ : Type} (handlers : List (Handler σ)) (payload : Option JValue)
    (s : σ) : σ × List Nat :=
  match payload with
  | none => (s, [])
  | some m => runHandlersFrom 0 handlers m s

/-- The four inference stages of the transcription pipeline (spec 4.4). -/
inductive Stage where
  | recognize
  | align
  | diarize
  | assignSpeaker
  deriving DecidableEq, Repr

/-- Human-readable stage name used in failure messages. -/
def stageName : Stage → String
  | .recognize => "recognize"
  | .align => "align"
  | .diarize => "diarize"
  | .assignSpeaker => "assign-speaker"

/-- Modelled from the spec: events produced by one run of the backend
Transcription Pipeline Orchestrator as observed by the Session State
Machine (the backend transcriber implementation is not in the source
tree).  A run emits finalized segments one at a time, then either
completes or fails at a named stage (spec 4.4). -/
inductive RunEvent where
  | emit (seg : TranscriptSegment)
  | fail (stage : Stage)
  | complete
  deriving DecidableEq, Repr

/-- Modelled from the spec: how the Session State Machine applies one
pipeline event to the session record — emitted segments are appended to
the transcript, failure transitions the status to error, completion to
completed (spec 4.4, 4.5); nothing is ever removed. -/
def applyEvent (sess : SessionRecord) : RunEvent → SessionRecord
  | .emit seg => { sess with transcript := sess.transcript ++ [seg] }
  | .fail _ => { sess with status := .error }
  | .complete => { sess with status := .completed }

/-- Folds a whole pipeline run's events into the session record. -/
def applyRun (sess : SessionRecord) (evs : List RunEvent) : SessionRecord :=
  evs.foldl applyEvent sess

/-- Ordering of segments by start time. -/
def segLE (a b : TranscriptSegment) : Prop := a.start ≤ b.start

instance : DecidableRel segLE := fun a b =>
  inferInstanceAs (Decidable (a.start ≤ b.start))

instance : IsTotal TranscriptSegment segLE :=
  ⟨fun a b => Int.le_total a.start b.start⟩

instance : IsTrans TranscriptSegment segLE :=
  ⟨fun _ _ _ h1 h2 => le_trans h1 h2⟩

/-- Modelled from the spec: after stage 4 the orchestrator emits the
final segments one at a time in transcript order, which is
non-decreasing `startSec` order (spec 4.4 and 5: segments for a single
pipeline run are emitted and persisted in non-decreasing startSec
order). -/
def emitSegments (segs : List TranscriptSegment) : List TranscriptSegment :=
  List.insertionSort segLE segs

/-- Modelled from the spec: the gateway frame broadcast for each pipeline
event — a segment frame per emitted segment, an error frame naming the
failing stage on failure, a final status frame on completion (spec 4.4,
4.6 and the WebSocket message reference). -/
def broadcastOf : RunEvent → WsMessage
  | .emit seg => .transcription seg
  | .fail st => .errorMsg ("Transcription failed at stage: " ++ stageName st)
  | .complete => .statusMsg ("Transcription complete")

/-- Modelled from the spec: a successful pipeline run replaces the
session transcript atomically (spec 3, transcript invariant) with the
segments emitted in order, then marks the session completed. -/
def runSuccess (sess : SessionRecord) (segs : List TranscriptSegment) :
    SessionRecord :=
  applyRun { sess with transcript := [] }
    ((emitSegments segs).map RunEvent.emit ++ [RunEvent.complete])

/-- Durable session store: association of session id to persisted JSON
record (each session is one JSON file named by its id, per the session
persistence notes). -/
def Store : Type := List (String × JValue)

/-- Writes (or overwrites) the persisted record for an id. -/
def saveToStore (store : Store) (id : String) (v : JValue) : Store :=
  (id, v) :: store.filter (fun p => p.1 != id)

/-- Reads the persisted record for an id. -/
def findRecord : Store → String → Option JValue
  | [], _ => none
  | (k, v) :: rest, id => if k = id then some v else findRecord rest id

/-- Serializes a segment, following the persisted record shape. -/
def segToJson (s : TranscriptSegment) : JValue :=
  .obj [("text", .str s.text), ("speaker", .str s.speaker),
        ("start", .num s.start), ("end", .num s.endSec)]

/-- Deserializes a segment written by `segToJson`. -/
def segFromJson : JValue → Option TranscriptSegment
  | .obj [("text", .str t), ("speaker", .str sp),
          ("start", .num a), ("end", .num b)] => some ⟨t, sp, a, b⟩
  | _ => none

/-- Serializes the status enum. -/
def statusToJson : SessionStatus → JValue
  | .created => .str ("created")
  | .recording => .str ("recording")
  | .processing => .str ("processing")
  | .completed => .str ("completed")
  | .error => .str ("error")

/-- Deserializes the status enum. -/
def statusFromJson : JValue → Option SessionStatus
  | .str ("created") => some .created
  | .str ("recording") => some .recording
  | .str ("processing") => some .processing
  | .str ("completed") => some .completed
  | .str ("error") => some .error
  | _ => none

/-- Serializes the optional audio file path. -/
def audioToJson : Option String → JValue
  | none => .null
  | some p => .str p

/-- Deserializes the optional audio file path. -/
def audioFromJson : JValue → Option (Option String)
  | .null => some none
  | .str p => some (some p)
  | _ => none

/-- Deserializes one participant label. -/
def strFromJson : JValue → Option String
  | .str s => some s
  | _ => none

/-- Deserializes a persisted transcript array element by element;
any malformed element makes the whole record unreadable. -/
def segsFromJson : List JValue → Option (List TranscriptSegment)
  | [] => some []
  | j :: rest =>
      match segFromJson j, segsFromJson rest with
      | some s, some l => some (s :: l)
      | _, _ => none

/-- Deserializes a persisted participant array element by element. -/
def strsFromJson : List JValue → Option (List String)
  | [] => some []
  | j :: rest =>
      match strFromJson j, strsFromJson rest with
      | some s, some l => some (s :: l)
      | _, _ => none

/-- Modelled from the spec: serialization of a session record to the JSON
shape persisted in backend/sessions/{id}.json (session persistence notes
and the persisted record shape of spec 6; the backend Session class is
not in the source tree). -/
def sessionToJson (s : SessionRecord) : JValue :=
  .obj [("id", .str s.id), ("name", .str s.name),
        ("status", statusToJson s.status),
        ("created_at", .str s.createdAt), ("updated_at", .str s.updatedAt),
        ("audio_file", audioToJson s.audioFile),
        ("transcript", .arr (s.transcript.map segToJson)),
        ("summary", .str s.summary), ("notes", .str s.notes),
        ("participants", .arr (s.participants.map JValue.str))]

/-- Modelled from the spec: deserialization of a persisted session
record written by `sessionToJson` — the record must carry exactly the
persisted field names, in the persisted order. -/
def sessionFromJson : JValue → Option SessionRecord
  | .obj [(k1, .str i), (k2, .str n), (k3, st), (k4, .str c), (k5, .str u),
          (k6, af), (k7, .arr ts), (k8, .str sm), (k9, .str no),
          (k10, .arr ps)] =>
      if k1 = "id" ∧ k2 = "name" ∧ k3 = "status" ∧ k4 = "created_at" ∧
         k5 = "updated_at" ∧ k6 = "audio_file" ∧ k7 = "transcript" ∧
         k8 = "summary" ∧ k9 = "notes" ∧ k10 = "participants" then
        match statusFromJson st, audioFromJson af,
              segsFromJson ts, strsFromJson ps with
        | some s, some a, some tl, some pl =>
            some ⟨i, n, s, c, u, a, tl, sm, no, pl⟩
        | _, _, _, _ => none
      else none
  | _ => none

/-- Modelled from the spec: the Session State Machine's internal
`transition` — it updates the status (and updatedAt), and persists the
record synchronously before returning (spec 4.5: every transition is
persisted synchronously before the call that triggered it returns). -/
def transition (store : Store) (s : SessionRecord) (newStatus : SessionStatus)
    (now : String) : SessionRecord × Store :=
  let s1 := { s with status := newStatus, updatedAt := now }
  (s1, saveToStore store s1.id (sessionToJson s1))

/-- One per-device raw PCM capture file (mono, 16-bit samples), as
produced by the capture controller: its own sample rate, the capture
start timestamp expressed in ticks of the common output rate, and the
sample data. -/
structure PCMInput where
  rate : Nat
  startOffset : Nat
  samples : List Int
  deriving DecidableEq, Repr

/-- Common output sample rate: the backend records 48 kHz mono 16-bit
PCM (API reference, POST /api/audio/start). -/
def COMMON_RATE : Nat := 48000

/-- Clipping to the valid signed 16-bit sample range. -/
def clip16 (x : Int) : Int := max (-32768) (min 32767 x)

/-- Modelled from the spec: resampling an input to the common sample
rate by index mapping — sample j of the resampled signal is the input
sample at the corresponding position of the input rate (spec 4.3:
resample all inputs to a common sample rate and channel count; the
backend numpy mixing code is not in the source tree).  Positions beyond
the data read as silence. -/
def resampleAt (inp : PCMInput) (j : Nat) : Int :=
  inp.samples.getD (j * inp.rate / COMMON_RATE) 0

/-- Length of the resampled signal, in common-rate ticks. -/
def resampledLen (inp : PCMInput) : Nat :=
  inp.samples.length * COMMON_RATE / inp.rate

/-- Modelled from the spec: the sample an input contributes at common
timestamp t once aligned by its capture start timestamp — silence before
the device started, its resampled signal afterwards (spec 4.3: align by
capture start timestamp, not by content; a stopped stream's tail reads
as silence). -/
def alignedSample (inp : PCMInput) (t : Nat) : Int :=
  if t < inp.startOffset then 0 else resampleAt inp (t - inp.startOffset)

/-- Duration, in common ticks, that an aligned input spans. -/
def alignedLen (inp : PCMInput) : Nat := inp.startOffset + resampledLen inp

/-- Total duration of the mixed output: the mix covers every input. -/
def mergedLen (inputs : List PCMInput) : Nat :=
  (inputs.map alignedLen).foldr max 0

/-- Modelled from the spec: the time-domain mixdown — at every common
timestamp the output sample is the sum of the aligned inputs' samples at
that timestamp, clipped to the valid range (spec 4.3 mixing law). -/
def mixdown (inputs : List PCMInput) : List Int :=
  (List.range (mergedLen inputs)).map
    (fun t => clip16 ((inputs.map (fun inp => alignedSample inp t)).sum))

/-- Modelled from the spec: straight transcode of a single input — only
resampling to the common rate, no summation and no clipping step
(spec 4.3: a single-device case is a straight transcode, skipping the
summation step). -/
def transcode (inp : PCMInput) : List Int :=
  (List.range (resampledLen inp)).map (resampleAt inp)

/-- Modelled from the spec: the merge entry point of the mixer/encoder
(named after `merge_audio_files` in the audio helpers documentation; the
backend implementation is not in the source tree).  A single input is
transcoded directly; two or more inputs are mixed down. -/
def merge_audio_files : List PCMInput → List Int
  | [inp] => transcode inp
  | inputs => mixdown inputs

/-- Modelled from the spec: the observable state of the shared inference
model handle (spec 5 and 9; the backend ModelService / transcription
manager implementation is not in the source tree).  `lock` holds the run
currently using the handle, `started` lists runs that have begun stage 1
in start order, `finished` lists runs that have fully completed or
failed. -/
structure ModelHandleState where
  lock : Option Nat
  started : List Nat
  finished : List Nat
  deriving DecidableEq, Repr

/-- Modelled from the spec: transitions of the single-flight model
handle — a run begins stage 1 only by acquiring the free handle, and
the handle is released only when a run fully completes or fails
(spec 5: access to that handle is single-flight). -/
inductive SFStep : ModelHandleState → ModelHandleState → Prop where
  | beginStage1 (r : Nat) (s : ModelHandleState) :
      s.lock = none → r ∉ s.started →
      SFStep s ⟨some r, s.started ++ [r], s.finished⟩
  | finish (r : Nat) (s : ModelHandleState) :
      s.lock = some r →
      SFStep s ⟨none, s.started, s.finished ++ [r]⟩

/-- States reachable from the initial idle handle. -/
inductive SFReachable : ModelHandleState → Prop where
  | init : SFReachable ⟨none, [], []⟩
  | step {s s1 : ModelHandleState} :
      SFReachable s → SFStep s s1 → SFReachable s1

/-- Modelled from the spec: a pipeline run that emits the segments `pre`
and then fails at stage `st` — the run aborts, the session keeps the
segments already emitted, transitions to error, and the updated record
is persisted in place, never deleted (spec 4.4 failure semantics and
spec 7 user-visible behavior). -/
def runFailure (store : Store) (sess : SessionRecord)
    (pre : List TranscriptSegment) (st : Stage) : SessionRecord × Store :=
  let s1 := applyRun sess (pre.map RunEvent.emit ++ [RunEvent.fail st])
  (s1, saveToStore store s1.id (sessionToJson s1))

/-- Gateway frames broadcast during a failing run, in emission order. -/
def runMessages (pre : List TranscriptSegment) (st : Stage) : List WsMessage :=
  (pre.map RunEvent.emit ++ [RunEvent.fail st]).map broadcastOf

/-- Concrete data used by the witness theorems below. -/
def wSeg1 : TranscriptSegment := ⟨"hello", "SPEAKER_00", 5, 7⟩

def wSeg2 : TranscriptSegment := ⟨"world", "SPEAKER_01", 2, 4⟩

def wSession : SessionRecord :=
  ⟨"s1", "Untitled Session", .processing, "t0", "t1", some ("/a.ogg"),
   [], "", "", []⟩

def wTState : TranscriptState := ⟨[], "", false, none, []⟩

def wWsClosed : WsState := ⟨some 3, false, []⟩

def wApp : AppState := ⟨wTState, wWsClosed⟩

def wStopBase : StopResponse :=
  ⟨"s1", "rec1", "/data/mixed.ogg", ["/data/d1.ogg", "/data/d2.ogg"],
   "Recording stopped. 2 file(s) captured."⟩

def wStopApi : String → Except String StopResponse := fun sid =>
  Except.ok ⟨sid, "rec1", "/data/mixed.ogg", ["/data/d1.ogg", "/data/d2.ogg"],
             "Recording stopped. 2 file(s) captured."⟩

def wAudioActive : AudioState := ⟨[76, 42], true, some ("s1"), 5, none⟩

def wAudioEmpty : AudioState := ⟨[], false, none, 0, none⟩

def throwingHandler : Handler (List Nat) := fun _ _ => HandlerResult.thrown

def loggingHandler : Handler (List Nat) := fun _ s => HandlerResult.ok (s ++ [7])

def okHandler : Handler (List Nat) := fun _ s => HandlerResult.ok (s ++ [1])

def wIn1 : PCMInput := ⟨48000, 0, [1000, 2000]⟩

def wIn2 : PCMInput := ⟨48000, 1, [40000, -50000]⟩

/-- Emitting a list of segments appends them, in order, to the session
transcript and changes nothing else. -/
theorem applyRun_emit_append (sess : SessionRecord) (l : List TranscriptSegment) :
    applyRun sess (l.map RunEvent.emit) =
      { sess with transcript := sess.transcript ++ l } := by
  induction l generalizing sess with
  | nil => simp [applyRun]
  | cons x xs ih =>
      simp only [List.map_cons, applyRun, List.foldl_cons] at ih ⊢
      rw [ih]
      simp [applyEvent]

/-- A successful run's transcript is exactly the emitted segment
sequence. -/
theorem runSuccess_transcript (sess : SessionRecord)
    (segs : List TranscriptSegment) :
    (runSuccess sess segs).transcript = emitSegments segs := by
  unfold runSuccess applyRun
  rw [List.foldl_append]
  have h := applyRun_emit_append { sess with transcript := [] } (emitSegments segs)
  unfold applyRun at h
  rw [h]
  simp [applyEvent]

/-- A successful run marks the session completed. -/
theorem runSuccess_status (sess : SessionRecord)
    (segs : List TranscriptSegment) :
    (runSuccess sess segs).status = SessionStatus.completed := by
  unfold runSuccess applyRun
  rw [List.foldl_append]
  simp [applyEvent]

/-- Processing transcription frames in arrival order appends their
segments to the observer store in that same order. -/
theorem foldl_transcription_segments (st : TranscriptState)
    (l : List TranscriptSegment) :
    ((l.map WsMessage.transcription).foldl handleMessage st).segments =
      st.segments ++ l := by
  induction l generalizing st with
  | nil => simp
  | cons x xs ih =>
      simp only [List.map_cons, List.foldl_cons]
      rw [ih]
      simp [handleMessage]

/-- The emitted segment sequence is sorted by start time. -/
theorem emitSegments_sorted (segs : List TranscriptSegment) :
    List.Chain' segLE (emitSegments segs) :=
  List.Pairwise.chain' (List.sorted_insertionSort segLE segs)

/-- C1: for every session and every successful pipeline run, the
transcript segment sequence is ordered by non-decreasing start time —
adjacent segments satisfy `startSec i <= startSec (i+1)` — both in the
persisted session transcript and in the observer-side transcript built
by appending segments in arrival order (the handler registered by
`TranscriptState.init`). -/
theorem c1_transcript_ordering (sess : SessionRecord)
    (segs : List TranscriptSegment) (st : TranscriptState)
    (h : st.segments = []) :
    List.Chain' segLE (runSuccess sess segs).transcript ∧
    (runSuccess sess segs).transcript = emitSegments segs ∧
    (((emitSegments segs).map WsMessage.transcription).foldl handleMessage st).segments
      = emitSegments segs ∧
    List.Chain' segLE
      (((emitSegments segs).map WsMessage.transcription).foldl handleMessage st).segments := by
  have hobs :
      (((emitSegments segs).map WsMessage.transcription).foldl handleMessage st).segments
        = emitSegments segs := by
    rw [foldl_transcription_segments, h]
    simp
  refine ⟨?_, runSuccess_transcript sess segs, hobs, ?_⟩
  · rw [runSuccess_transcript]
    exact emitSegments_sorted segs
  · rw [hobs]
    exact emitSegments_sorted segs

/-- Witness for C1 at a concrete out-of-order segment pair. -/
theorem c1_transcript_ordering_witness :
    wTState.segments = [] ∧
    List.Chain' segLE (runSuccess wSession [wSeg1, wSeg2]).transcript ∧
    (((emitSegments [wSeg1, wSeg2]).map WsMessage.transcription).foldl
        handleMessage wTState).segments = emitSegments [wSeg1, wSeg2] :=
  ⟨rfl, (c1_transcript_ordering wSession [wSeg1, wSeg2] wTState rfl).1,
   (c1_transcript_ordering wSession [wSeg1, wSeg2] wTState rfl).2.2.1⟩

/-- A run that emits `pre` and then fails leaves status error and the
emitted segments appended, untouched. -/
theorem applyRun_fail (sess : SessionRecord) (pre : List TranscriptSegment)
    (st : Stage) :
    applyRun sess (pre.map RunEvent.emit ++ [RunEvent.fail st]) =
      { sess with transcript := sess.transcript ++ pre,
                  status := SessionStatus.error } := by
  unfold applyRun
  rw [List.foldl_append]
  have h := applyRun_emit_append sess pre
  unfold applyRun at h
  rw [h]
  simp [applyEvent]

/-- Reading back an id just saved returns the saved record. -/
theorem findRecord_save (store : Store) (id : String) (v : JValue) :
    findRecord (saveToStore store id v) id = some v := by
  simp [saveToStore, findRecord]

/-- C4: for every pipeline run in which some stage fails, the run is
aborted, every segment already emitted before the failure remains in the
session transcript unchanged, the session transitions to the error
status with a message identifying the failing stage, and the session and
its partial transcript/audio are persisted in place, not deleted. -/
theorem c4_stage_failure (store : Store) (sess : SessionRecord)
    (pre : List TranscriptSegment) (st : Stage) :
    (runFailure store sess pre st).1.status = SessionStatus.error ∧
    (runFailure store sess pre st).1.transcript = sess.transcript ++ pre ∧
    (runFailure store sess pre st).1.audioFile = sess.audioFile ∧
    findRecord (runFailure store sess pre st).2 sess.id
      = some (sessionToJson (runFailure store sess pre st).1) ∧
    (runMessages pre st).getLast?
      = some (WsMessage.errorMsg ("Transcription failed at stage: " ++ stageName st)) := by
  have hrun := applyRun_fail sess pre st
  refine ⟨?_, ?_, ?_, ?_, ?_⟩
  · simp [runFailure, hrun]
  · simp [runFailure, hrun]
  · simp [runFailure, hrun]
  · have hid : (runFailure store sess pre st).1.id = sess.id := by
      simp [runFailure, hrun]
    rw [← hid]
    show findRecord (saveToStore store ((runFailure store sess pre st).1.id)
        (sessionToJson (runFailure store sess pre st).1)) _ = _
    exact findRecord_save _ _ _
  · unfold runMessages
    rw [List.map_append]
    exact List.getLast?_concat _

/-- Segment serialization round-trips. -/
theorem seg_roundtrip (s : TranscriptSegment) :
    segFromJson (segToJson s) = some s := rfl

/-- Status serialization round-trips. -/
theorem status_roundtrip (s : SessionStatus) :
    statusFromJson (statusToJson s) = some s := by
  cases s <;> rfl

/-- Audio path serialization round-trips. -/
theorem audio_roundtrip (a : Option String) :
    audioFromJson (audioToJson a) = some a := by
  cases a <;> rfl

/-- Transcript list serialization round-trips. -/
theorem segs_roundtrip (l : List TranscriptSegment) :
    segsFromJson (l.map segToJson) = some l := by
  induction l with
  | nil => rfl
  | cons x xs ih => simp [segsFromJson, seg_roundtrip, ih]

/-- Participant list serialization round-trips. -/
theorem strs_roundtrip (l : List String) :
    strsFromJson (l.map JValue.str) = some l := by
  induction l with
  | nil => rfl
  | cons x xs ih => simp [strsFromJson, strFromJson, ih]

/-- Full session record serialization round-trips. -/
theorem session_roundtrip (s : SessionRecord) :
    sessionFromJson (sessionToJson s) = some s := by
  simp [sessionToJson, sessionFromJson, status_roundtrip, audio_roundtrip,
        segs_roundtrip, strs_roundtrip]

/-- C7: persisting a session and reloading it from durable storage
reproduces a record whose status/transcript/summary/notes tuple is the
one persisted, and every status transition is persisted synchronously —
the store returned by `transition` already holds the transitioned
record when the call returns. -/
theorem c7_roundtrip_persist (s : SessionRecord) (store : Store)
    (st : SessionStatus) (now : String) :
    (sessionFromJson (sessionToJson s)).map
        (fun r => (r.status, r.transcript, r.summary, r.notes))
      = some (s.status, s.transcript, s.summary, s.notes) ∧
    (transition store s st now).1.status = st ∧
    (findRecord (transition store s st now).2 s.id).bind sessionFromJson
      = some { s with status := st, updatedAt := now } := by
  refine ⟨?_, rfl, ?_⟩
  · rw [session_roundtrip]
    rfl
  · show (findRecord (saveToStore store s.id
        (sessionToJson { s with status := st, updatedAt := now })) s.id).bind
      sessionFromJson = _
    rw [findRecord_save]
    simp [session_roundtrip]

/-- C10: a createSession call with the name omitted or undefined sends a
request body whose name field is the literal string Untitled Session,
and for every call the body carries a name field holding a string —
never null and never absent. -/
theorem c10_default_session_name :
    createSessionBody none = JValue.obj [("name", JValue.str ("Untitled Session"))] ∧
    ∀ name : Option String, ∃ s : String,
      createSessionBody name = JValue.obj [("name", JValue.str s)] :=
  ⟨rfl, fun name => ⟨name.getD ("Untitled Session"), rfl⟩⟩

/-- C8: the gateway client transmits a frame if and only if the
underlying socket exists and is in the OPEN state; in every other state
the frame is silently discarded, with no error and no state change —
so a transcription request issued while disconnected is lost even
though the transcript store has already set isProcessing to true. -/
theorem c8_send_only_when_open (st : WsState) (m : JValue) (app : AppState)
    (path : String) (sid : Option String) :
    ((send st m).sent = st.sent ++ [m] ↔ st.ws = some WS_OPEN) ∧
    (st.ws ≠ some WS_OPEN → send st m = st) ∧
    (app.ws.ws ≠ some WS_OPEN →
      (startTranscription app path sid).ts.isProcessing = true ∧
      (startTranscription app path sid).ws.sent = app.ws.sent) := by
  refine ⟨⟨?_, ?_⟩, ?_, ?_⟩
  · intro h
    by_cases hc : st.ws = some WS_OPEN
    · exact hc
    · exfalso
      simp only [send, if_neg hc] at h
      have hlen := congrArg List.length h
      simp [List.length_append] at hlen
  · intro hc
    simp [send, hc]
  · intro hc
    simp [send, hc]
  · intro hc
    refine ⟨rfl, ?_⟩
    simp [startTranscription, send, hc]

/-- Witness for C8 at a concrete closed socket (readyState 3). -/
theorem c8_send_only_when_open_witness :
    wWsClosed.ws ≠ some WS_OPEN ∧
    send wWsClosed (JValue.str ("x")) = wWsClosed ∧
    (startTranscription wApp ("a.ogg") none).ts.isProcessing = true ∧
    (startTranscription wApp ("a.ogg") none).ws.sent = wApp.ws.sent :=
  have h := c8_send_only_when_open wWsClosed (JValue.str ("x")) wApp ("a.ogg") none
  have hne : wWsClosed.ws ≠ some WS_OPEN := by decide
  ⟨hne, h.2.1 hne, (h.2.2 hne).1, (h.2.2 hne).2⟩

/-- C5: startRecording with an empty device selection fails with the
no-device-selected error, issues no request to the backend (hence no
CaptureJob is created and no capture subprocess is spawned), and leaves
every other piece of state unchanged. -/
theorem c5_empty_device_list (st : AudioState) (sid : Option String)
    (api : List Nat → Option String → Except String StartResponse)
    (h : st.selectedDeviceIds = []) :
    startRecording st sid api =
      ({ st with error := some ("Select at least one audio device") }, none) := by
  simp [startRecording, h]

/-- Witness for C5 at a concrete empty selection. -/
theorem c5_empty_device_list_witness :
    wAudioEmpty.selectedDeviceIds = [] ∧
    startRecording wAudioEmpty none
        (fun _ _ => Except.ok ⟨"sX", "rX", "started"⟩) =
      ({ wAudioEmpty with error := some ("Select at least one audio device") }, none) :=
  ⟨rfl, c5_empty_device_list wAudioEmpty none
          (fun _ _ => Except.ok ⟨"sX", "rX", "started"⟩) rfl⟩

/-- Counterexample for C2: on the concrete recording state wAudioActive,
the first stop returns the merged-file result, but a second stop returns
no result at all — not the same result as the first call, contradicting
the claim that the prior result is returned. -/
theorem c2_counterexample :
    (stopRecording wAudioActive wStopApi).2 = some wStopBase ∧
    (stopRecording (stopRecording wAudioActive wStopApi).1 wStopApi).2 = none ∧
    (stopRecording (stopRecording wAudioActive wStopApi).1 wStopApi).2 ≠
      (stopRecording wAudioActive wStopApi).2 := by
  refine ⟨rfl, rfl, ?_⟩
  intro h
  exact Option.noConfusion h

/-- C2 amended: a second stop on an already-stopped session is a silent
no-op — it raises no error and leaves the state unchanged, but it
returns no result (in particular not the prior mergedFile path). -/
theorem c2_stop_second_is_noop (st : AudioState)
    (api : String → Except String StopResponse) (sid : String)
    (res : StopResponse) (h1 : st.activeSessionId = some sid)
    (h2 : api sid = Except.ok res) :
    (stopRecording st api).2 = some { res with sessionId := sid } ∧
    stopRecording (stopRecording st api).1 api = ((stopRecording st api).1, none) := by
  simp [stopRecording, h1, h2]

/-- Witness for the amended C2 at the concrete recording state. -/
theorem c2_stop_second_is_noop_witness :
    wAudioActive.activeSessionId = some ("s1") ∧
    (stopRecording wAudioActive wStopApi).2 = some wStopBase ∧
    stopRecording (stopRecording wAudioActive wStopApi).1 wStopApi =
      ((stopRecording wAudioActive wStopApi).1, none) :=
  have h := c2_stop_second_is_noop wAudioActive wStopApi ("s1") wStopBase rfl rfl
  ⟨rfl, h.1, h.2⟩

/-- The handler loop invokes a consecutive run of registration indices
starting at i. -/
theorem runHandlersFrom_prefix {σ : Type} (m : JValue) :
    ∀ (hs : List (Handler σ)) (i : Nat) (s : σ), ∃ k, k ≤ hs.length ∧
      (runHandlersFrom i hs m s).2 = List.range' i k := by
  intro hs
  induction hs with
  | nil => intro i s; exact ⟨0, Nat.le_refl 0, rfl⟩
  | cons h rest ih =>
      intro i s
      cases hh : h m s with
      | thrown =>
          refine ⟨1, by simp, ?_⟩
          simp [runHandlersFrom, hh]
      | ok s1 =>
          obtain ⟨k, hk, hr⟩ := ih (i + 1) s1
          refine ⟨k + 1, by simpa using Nat.succ_le_succ hk, ?_⟩
          simp [runHandlersFrom, hh, hr, List.range'_succ]

/-- When no registered handler throws, the loop invokes all of them, in
registration order. -/
theorem runHandlersFrom_noThrow {σ : Type} (m : JValue) :
    ∀ (hs : List (Handler σ)),
      (∀ h, h ∈ hs → ∀ m1 s1, h m1 s1 ≠ HandlerResult.thrown) →
      ∀ (i : Nat) (s : σ),
        (runHandlersFrom i hs m s).2 = List.range' i hs.length := by
  intro hs
  induction hs with
  | nil => intro _ i s; rfl
  | cons h rest ih =>
      intro hnt i s
      cases hh : h m s with
      | thrown => exact absurd hh (hnt h (List.mem_cons_self h rest) m s)
      | ok s1 =>
          have hr := ih (fun g hg => hnt g (List.mem_cons_of_mem h hg)) (i + 1) s1
          simp [runHandlersFrom, hh, hr, List.range'_succ]

/-- Counterexample for C9: with a first registered handler that throws
and a second that does not, a valid JSON payload invokes only handler 0;
handler 1 is never invoked, so not every registered handler is invoked
exactly once. -/
theorem c9_counterexample :
    (onmessage [throwingHandler, loggingHandler] (some (JValue.str ("m")))
        ([] : List Nat)).2 = [0] ∧
    (onmessage [throwingHandler, loggingHandler] (some (JValue.str ("m")))
        ([] : List Nat)).2 ≠
      List.range ([throwingHandler, loggingHandler] : List (Handler (List Nat))).length := by
  exact ⟨rfl, by decide⟩

/-- C9 amended: an invalid JSON payload invokes no handler, raises no
exception to the caller and leaves state unchanged; a valid JSON payload
invokes handlers in registration order, each at most once, forming a
consecutive run from index 0 that stops at the first throwing handler —
and when no registered handler throws, every handler is invoked exactly
once in registration order. -/
theorem c9_message_dispatch (σ : Type) (handlers : List (Handler σ))
    (m : JValue) (s : σ) :
    onmessage handlers none s = (s, []) ∧
    (∃ k, k ≤ handlers.length ∧
      (onmessage handlers (some m) s).2 = List.range' 0 k) ∧
    ((∀ h, h ∈ handlers → ∀ m1 s1, h m1 s1 ≠ HandlerResult.thrown) →
      (onmessage handlers (some m) s).2 = List.range handlers.length) := by
  refine ⟨rfl, ?_, ?_⟩
  · exact runHandlersFrom_prefix m handlers 0 s
  · intro hnt
    rw [List.range_eq_range']
    exact runHandlersFrom_noThrow m handlers hnt 0 s

/-- Witness for C9 at two concrete non-throwing handlers. -/
theorem c9_message_dispatch_witness :
    onmessage [okHandler, okHandler] none ([] : List Nat) = ([], []) ∧
    (onmessage [okHandler, okHandler] (some (JValue.str ("m")))
        ([] : List Nat)).2 = List.range 2 := by
  have h := c9_message_dispatch (List Nat) [okHandler, okHandler] (JValue.str ("m")) []
  refine ⟨h.1, ?_⟩
  have hnt : ∀ g, g ∈ ([okHandler, okHandler] : List (Handler (List Nat))) →
      ∀ m1 s1, g m1 s1 ≠ HandlerResult.thrown := by
    intro g hg m1 s1
    have hcases : g = okHandler ∨ g = okHandler := by simpa using hg
    rcases hcases with rfl | rfl <;> simp [okHandler]
  simpa using h.2.2 hnt

/-- C3: with at least two device inputs, merge resamples every input to
the common rate, aligns each by its capture start offset, and the output
sample at every timestamp is the clipped sum of the aligned inputs'
samples at that timestamp; a single-device input list is a straight
transcode with no summation. -/
theorem c3_mixing_law (inputs : List PCMInput) (t : Nat) (inp : PCMInput)
    (h2 : 2 ≤ inputs.length) (ht : t < mergedLen inputs) :
    (merge_audio_files inputs)[t]? =
      some (clip16 ((inputs.map (fun i => alignedSample i t)).sum)) ∧
    merge_audio_files [inp] = transcode inp := by
  refine ⟨?_, rfl⟩
  rcases inputs with _ | ⟨a, _ | ⟨b, rest⟩⟩
  · simp at h2
  · simp at h2
  · show (mixdown (a :: b :: rest))[t]? = _
    simp [mixdown, ht]

/-- Witness for C3 at two concrete 48 kHz inputs whose second sample sum
exceeds the clipping range. -/
theorem c3_mixing_law_witness :
    2 ≤ ([wIn1, wIn2] : List PCMInput).length ∧
    1 < mergedLen [wIn1, wIn2] ∧
    (merge_audio_files [wIn1, wIn2])[1]? =
      some (clip16 (([wIn1, wIn2].map (fun i => alignedSample i 1)).sum)) ∧
    merge_audio_files [wIn1] = transcode wIn1 :=
  have h := c3_mixing_law [wIn1, wIn2] 1 wIn1 (by decide) (by decide)
  ⟨by decide, by decide, h.1, h.2⟩

/-- Safety invariant of the single-flight handle: every run that ever
started is finished, except possibly the current lock holder. -/
theorem sf_invariant {s : ModelHandleState} (h : SFReachable s) :
    ∀ r ∈ s.started, r ∈ s.finished ∨ s.lock = some r := by
  induction h with
  | init => intro r hr; simp at hr
  | step hre hstep ih =>
      cases hstep with
      | beginStage1 r2 s0 hl hn =>
          intro r hr
          rcases List.mem_append.mp hr with hr | hr
          · rcases ih r hr with hf | hlk
            · exact Or.inl hf
            · rw [hl] at hlk
              exact Option.noConfusion hlk
          · have hr2 : r = r2 := by simpa using hr
            exact Or.inr (by simp [hr2])
      | finish r2 s0 hl =>
          intro r hr
          rcases ih r hr with hf | hlk
          · exact Or.inl (List.mem_append.mpr (Or.inl hf))
          · have hr2 : r = r2 := by
              rw [hl] at hlk
              exact (Option.some.inj hlk).symm
            exact Or.inl (by simp [hr2])

/-- C6: across all sessions sharing the inference model handle, a run
begins stage 1 only via a step that requires the handle to be free, and
at that moment every previously started run has fully completed or
failed — two concurrent run requests are serialized, never
interleaved. -/
theorem c6_single_flight (s s1 : ModelHandleState) (r2 : Nat)
    (h : SFReachable s) (hstep : SFStep s s1)
    (hbegin : s1.started = s.started ++ [r2]) :
    ∀ r1 ∈ s.started, r1 ∈ s.finished := by
  cases hstep with
  | beginStage1 r3 s0 hl hn =>
      intro r1 hr
      rcases sf_invariant h r1 hr with hf | hlk
      · exact hf
      · rw [hl] at hlk
        exact Option.noConfusion hlk
  | finish r3 s0 hl =>
      exfalso
      have hlen := congrArg List.length hbegin
      simp [List.length_append] at hlen

/-- Witness for C6 on the concrete trace: run 0 begins stage 1,
finishes, then run 1 begins stage 1; run 0 is finished at that point. -/
theorem c6_single_flight_witness :
    (0 : Nat) ∈ (⟨none, [0], [0]⟩ : ModelHandleState).finished :=
  have h0 : SFReachable ⟨none, [], []⟩ := SFReachable.init
  have h1 : SFReachable ⟨some 0, [0], []⟩ :=
    SFReachable.step h0 (SFStep.beginStage1 0 ⟨none, [], []⟩ rfl (by decide))
  have h2 : SFReachable ⟨none, [0], [0]⟩ :=
    SFReachable.step h1 (SFStep.finish 0 ⟨some 0, [0], []⟩ rfl)
  c6_single_flight ⟨none, [0], [0]⟩ ⟨some 1, [0, 1], [0]⟩ 1 h2
    (SFStep.beginStage1 1 ⟨none, [0], [0]⟩ rfl (by decide)) rfl 0 (by decide)

end Mnemosyne
